import Mathlib

/-!
Shallow embedding of the DailyMusic module (src/__init__.py).

The module keeps two SQLite tables:
  users(discord_id PRIMARY KEY, lfm_username, lfm_api_key)
  tracks(user_id, date, track_artist, track_name,
         PRIMARY KEY(user_id, track_artist, track_name))

We model each table as a list of rows, appended to by INSERT, and the
two operations of the cog:
  get_track   - the discovery engine (lines 66-100)
  daily_task  - the daily scheduler sweep (lines 139-168)
together with the credential lookup (get_credentials, lines 59-64) and
registration (RegisterModal.on_submit, lines 123-130).

Network responses are modelled by an abstract `Response` value per
(credentials, period) pair: the HTTP status, and a body that is either
malformed JSON, an embedded error payload, or a parsed top-tracks list.
Colour selection for the embed (a PRNG in the delivery layer) and the
avatar URL are not modelled; the notification payload keeps the
deterministic fields built from the track and the resolved user.
-/

namespace DailyMusic

/-- TIME_RANGES from line 14 of the source, ordered shortest window first. -/
def TIME_RANGES : List String := ["7day", "1month", "3month", "6month", "12month", "overall"]

/-- Credentials namedtuple (line 16). -/
structure Credentials where
  username : String
  api_key : String
deriving DecidableEq, Repr

/-- Track namedtuple (line 17). -/
structure Track where
  artist : String
  name : String
deriving DecidableEq, Repr

/-- One row of the tracks table (schema lines 46-54, insert line 95-98). -/
structure LedgerRow where
  user_id : Nat
  date : String
  track_artist : String
  track_name : String
deriving DecidableEq, Repr

/-- The tracks table: the seen-track ledger. -/
abbrev Ledger := List LedgerRow

/-- One row of the users table (schema lines 39-45). -/
structure UserRow where
  discord_id : Nat
  lfm_username : String
  lfm_api_key : String
deriving DecidableEq, Repr

/-- Both persisted tables of daily_music.db. -/
structure DB where
  users : List UserRow
  tracks : Ledger
deriving DecidableEq, Repr

/-- Body of a service response, after the HTTP layer: the JSON either fails
to parse or lacks the expected keys (malformed), embeds an error payload
with a message, or carries the parsed, rank-ordered top-tracks list. -/
inductive Body where
  | malformed
  | errorPayload (message : String)
  | ok (tracks : List Track)
deriving DecidableEq, Repr

/-- An abstract HTTP response from the scrobbling service. -/
structure Response where
  status : Nat
  body : Body
deriving DecidableEq, Repr

/-- One fetch of a top-tracks page, as get_track performs it (lines 80-86):
response.raise_for_status() raises on a status of 400 or above, a JSON
parse failure or missing key raises, and an embedded error payload raises
APIError with the service message interpolated. -/
def fetchTopTracks (resp : Response) : Except String (List Track) :=
  if 400 ≤ resp.status then
    Except.error ("HTTP status error: " ++ toString resp.status)
  else
    match resp.body with
    | Body.malformed => Except.error "malformed response"
    | Body.errorPayload m => Except.error ("Error while fetching top tracks: " ++ m)
    | Body.ok tracks => Except.ok tracks

/-- Membership test of lines 91-94: SELECT 1 FROM tracks WHERE user_id = ?
AND track_artist = ? AND track_name = ? (the date column is ignored). -/
def isSeen (user_id : Nat) (artist name : String) (db : Ledger) : Bool :=
  db.any fun r => r.user_id == user_id && r.track_artist == artist && r.track_name == name

/-- The inner loop of get_track over one range's track list (lines 88-100):
skip tracks already in the ledger; at the first unseen track, insert it
dated today and return it. -/
def scanTracks (user_id : Nat) (today : String) :
    Ledger → List Track → Ledger × Option Track
  | db, [] => (db, none)
  | db, t :: ts =>
    if isSeen user_id t.artist t.name db then
      scanTracks user_id today db ts
    else
      (db ++ [⟨user_id, today, t.artist, t.name⟩], some t)

/-- The outer loop of get_track over the time ranges (lines 79-100): fetch
each range in order; a fetch failure propagates; otherwise scan the list,
returning at the first unseen track, and fall through to the next range
when every track of the range is seen. Running off the end returns none
(the implicit Python return). The returned ledger is the database state
after the call, whether it succeeded or raised. -/
def get_trackGo (user_id : Nat) (today : String) (service : String → Response) :
    Ledger → List String → Ledger × Except String (Option Track)
  | db, [] => (db, Except.ok none)
  | db, time_range :: rest =>
    match fetchTopTracks (service time_range) with
    | Except.error e => (db, Except.error e)
    | Except.ok tracks =>
      match scanTracks user_id today db tracks with
      | (db2, some track) => (db2, Except.ok (some track))
      | (db2, none) => get_trackGo user_id today service db2 rest

/-- get_track (lines 66-100): iterate TIME_RANGES with the credentials
baked into the request URL. -/
def get_track (user_id : Nat) (credentials : Credentials) (today : String)
    (service : Credentials → String → Response) (db : Ledger) :
    Ledger × Except String (Option Track) :=
  get_trackGo user_id today (service credentials) db TIME_RANGES

/-- get_credentials (lines 59-64). -/
def get_credentials (users : List UserRow) (user_id : Nat) : Option Credentials :=
  match users.find? (fun u => u.discord_id == user_id) with
  | some u => some ⟨u.lfm_username, u.lfm_api_key⟩
  | none => none

/-- The message of NoCredentialsError (lines 20-22). -/
def noCredentialsMessage : String := "You need to set your Last.fm username and API key."

/-- RegisterModal.on_submit (lines 123-130): INSERT OR REPLACE INTO users.
The replaced row, if any, is removed; the tracks table is untouched. -/
def register (db : DB) (user_id : Nat) (username api_key : String) : DB :=
  { db with
    users := db.users.filter (fun u => !(u.discord_id == user_id)) ++ [⟨user_id, username, api_key⟩] }

/-- Modelled from the spec: the repository declares NoCredentialsError and
get_credentials but contains no command that triggers a discovery attempt
outside the scheduler; the spec requires such an attempt to fail with the
user-visible NoCredentialsError message when no credentials are stored,
and to run discovery otherwise. -/
def manual_discovery (db : DB) (user_id : Nat) (today : String)
    (service : Credentials → String → Response) :
    Ledger × Except String (Option Track) :=
  match get_credentials db.users user_id with
  | none => (db.tracks, Except.error noCredentialsMessage)
  | some credentials => get_track user_id credentials today service db.tracks

/-- A resolved Discord user, as needed by the notification step
(lines 156-168). -/
structure Profile where
  id : Nat
  global_name : String
deriving DecidableEq, Repr

/-- The deterministic fields of the webhook payload (lines 159-168). -/
structure Notification where
  username : String
  title : String
  search_query : String
deriving DecidableEq, Repr

/-- The skip test of lines 143-147: SELECT 1 FROM tracks WHERE
user_id = ? AND date = date('now'). -/
def hasTodayRow (user_id : Nat) (today : String) (db : Ledger) : Bool :=
  db.any fun r => r.user_id == user_id && r.date == today

/-- The per-user body of the daily_task loop (lines 143-168): skip when a
row dated today exists; call get_track, catching any error (log and
continue); skip when no track was found; resolve the user, skipping when
resolution yields nobody; otherwise emit the notification payload. -/
def processUser (today : String) (service : Credentials → String → Response)
    (resolve : Nat → Option Profile) (u : UserRow) (db : Ledger) :
    Ledger × List Notification :=
  if hasTodayRow u.discord_id today db then
    (db, [])
  else
    match get_track u.discord_id ⟨u.lfm_username, u.lfm_api_key⟩ today service db with
    | (db2, Except.error _) => (db2, [])
    | (db2, Except.ok none) => (db2, [])
    | (db2, Except.ok (some t)) =>
      match resolve u.discord_id with
      | none => (db2, [])
      | some p =>
        (db2, [{ username := "Daily Music - " ++ p.global_name
               , title := t.name ++ " by " ++ t.artist
               , search_query := t.name ++ " " ++ t.artist }])

/-- daily_task (lines 139-168): sweep the users table in order, threading
the ledger through each user's processing and collecting the sent
notifications. -/
def daily_task (today : String) (service : Credentials → String → Response)
    (resolve : Nat → Option Profile) :
    Ledger → List UserRow → Ledger × List Notification
  | db, [] => (db, [])
  | db, u :: rest =>
    match processUser today service resolve u db with
    | (db1, sent) =>
      match daily_task today service resolve db1 rest with
      | (db2, sent2) => (db2, sent ++ sent2)

/-- The per-user body of the daily_task loop with the fallible steps kept
fallible: the try/except of lines 149-153 guards only the get_track call,
whose errors are logged and absorbed; bot.fetch_user (line 156) can raise
an uncaught exception (modelled as resolve returning an error) or yield
nobody (the if-not-user continue of lines 157-158), and webhook.send
(line 159) can raise an uncaught exception (send returning an error).
An uncaught exception escapes the per-user body. -/
def processUserExc (today : String) (service : Credentials → String → Response)
    (resolve : Nat → Except String (Option Profile))
    (send : Notification → Except String Unit) (u : UserRow) (db : Ledger) :
    Ledger × Except String (List Notification) :=
  if hasTodayRow u.discord_id today db then
    (db, Except.ok [])
  else
    match get_track u.discord_id ⟨u.lfm_username, u.lfm_api_key⟩ today service db with
    | (db2, Except.error _) => (db2, Except.ok [])
    | (db2, Except.ok none) => (db2, Except.ok [])
    | (db2, Except.ok (some t)) =>
      match resolve u.discord_id with
      | Except.error e => (db2, Except.error e)
      | Except.ok none => (db2, Except.ok [])
      | Except.ok (some p) =>
        let n : Notification :=
          { username := "Daily Music - " ++ p.global_name
          , title := t.name ++ " by " ++ t.artist
          , search_query := t.name ++ " " ++ t.artist }
        match send n with
        | Except.error e => (db2, Except.error e)
        | Except.ok _ => (db2, Except.ok [n])

/-- daily_task (lines 139-168) with the uncaught exception paths kept: an
error escaping a user's body propagates out of the for loop, aborting the
sweep with the remaining users unprocessed. -/
def daily_taskExc (today : String) (service : Credentials → String → Response)
    (resolve : Nat → Except String (Option Profile))
    (send : Notification → Except String Unit) :
    Ledger → List UserRow → Ledger × Except String (List Notification)
  | db, [] => (db, Except.ok [])
  | db, u :: rest =>
    match processUserExc today service resolve send u db with
    | (db1, Except.error e) => (db1, Except.error e)
    | (db1, Except.ok sent) =>
      match daily_taskExc today service resolve send db1 rest with
      | (db2, Except.error e) => (db2, Except.error e)
      | (db2, Except.ok sent2) => (db2, Except.ok (sent ++ sent2))

/-! Helper lemmas about the inner scan. -/

theorem scanTracks_none {user_id : Nat} {today : String} {db db2 : Ledger}
    {ts : List Track} (h : scanTracks user_id today db ts = (db2, none)) :
    db2 = db := by
  induction ts generalizing db with
  | nil => simpa [scanTracks] using (congrArg Prod.fst h).symm
  | cons t ts ih =>
    rw [scanTracks] at h
    by_cases hs : isSeen user_id t.artist t.name db
    · rw [if_pos hs] at h
      exact ih h
    · rw [if_neg hs] at h
      exact absurd (congrArg Prod.snd h) (by simp)

theorem scanTracks_some {user_id : Nat} {today : String} {db db2 : Ledger}
    {ts : List Track} {t : Track}
    (h : scanTracks user_id today db ts = (db2, some t)) :
    db2 = db ++ [⟨user_id, today, t.artist, t.name⟩] ∧
      isSeen user_id t.artist t.name db = false := by
  induction ts generalizing db with
  | nil => exact absurd (congrArg Prod.snd h) (by simp [scanTracks])
  | cons t' ts ih =>
    rw [scanTracks] at h
    by_cases hs : isSeen user_id t'.artist t'.name db
    · rw [if_pos hs] at h
      exact ih h
    · rw [if_neg hs] at h
      obtain rfl : t' = t := by simpa using congrArg Prod.snd h
      exact ⟨(congrArg Prod.fst h).symm, by simpa using hs⟩

theorem scanTracks_all_seen {user_id : Nat} {today : String} {db : Ledger}
    {ts : List Track} (h : ∀ t ∈ ts, isSeen user_id t.artist t.name db = true) :
    scanTracks user_id today db ts = (db, none) := by
  induction ts with
  | nil => rfl
  | cons t ts ih =>
    rw [scanTracks, if_pos (h t (List.mem_cons_self t ts))]
    exact ih fun t' ht' => h t' (List.mem_cons_of_mem t ht')

theorem scanTracks_first_unseen {user_id : Nat} {today : String} {db : Ledger}
    {tpre tpost : List Track} {t : Track}
    (hpre : ∀ t' ∈ tpre, isSeen user_id t'.artist t'.name db = true)
    (ht : isSeen user_id t.artist t.name db = false) :
    scanTracks user_id today db (tpre ++ t :: tpost) =
      (db ++ [⟨user_id, today, t.artist, t.name⟩], some t) := by
  induction tpre with
  | nil => simp [scanTracks, ht]
  | cons t' tpre ih =>
    rw [List.cons_append, scanTracks, if_pos (hpre t' (List.mem_cons_self t' tpre))]
    exact ih fun x hx => hpre x (List.mem_cons_of_mem t' hx)

theorem scanTracks_congr {user_id : Nat} {today : String} {db db2 : Ledger}
    (ts : List Track)
    (h : ∀ a n, isSeen user_id a n db = isSeen user_id a n db2) :
    ∃ Δ res, scanTracks user_id today db ts = (db ++ Δ, res) ∧
      scanTracks user_id today db2 ts = (db2 ++ Δ, res) := by
  induction ts with
  | nil => exact ⟨[], none, by simp [scanTracks]⟩
  | cons t ts ih =>
    rw [scanTracks, scanTracks, ← h t.artist t.name]
    by_cases hs : isSeen user_id t.artist t.name db
    · rw [if_pos hs, if_pos hs]
      exact ih
    · rw [if_neg hs, if_neg hs]
      exact ⟨[⟨user_id, today, t.artist, t.name⟩], some t, rfl, rfl⟩

/-! Helper lemmas about the range loop. -/

theorem get_trackGo_error {user_id : Nat} {today : String} {service : String → Response}
    {db db2 : Ledger} {rs : List String} {e : String}
    (h : get_trackGo user_id today service db rs = (db2, Except.error e)) :
    db2 = db := by
  induction rs generalizing db with
  | nil => exact absurd (congrArg Prod.snd h) (by simp [get_trackGo])
  | cons r rs ih =>
    cases hf : fetchTopTracks (service r) with
    | error e' =>
      simp only [get_trackGo, hf] at h
      exact (congrArg Prod.fst h).symm
    | ok tracks =>
      simp only [get_trackGo, hf] at h
      cases hscan : scanTracks user_id today db tracks with
      | mk dbs res =>
        simp only [hscan] at h
        cases res with
        | some t => simp at h
        | none =>
          obtain rfl : dbs = db := scanTracks_none hscan
          exact ih h

theorem get_trackGo_some {user_id : Nat} {today : String} {service : String → Response}
    {db db2 : Ledger} {rs : List String} {t : Track}
    (h : get_trackGo user_id today service db rs = (db2, Except.ok (some t))) :
    db2 = db ++ [⟨user_id, today, t.artist, t.name⟩] ∧
      isSeen user_id t.artist t.name db = false := by
  induction rs generalizing db with
  | nil => exact absurd (congrArg Prod.snd h) (by simp [get_trackGo])
  | cons r rs ih =>
    cases hf : fetchTopTracks (service r) with
    | error e' =>
      simp only [get_trackGo, hf] at h
      exact absurd (congrArg Prod.snd h) (by simp)
    | ok tracks =>
      simp only [get_trackGo, hf] at h
      cases hscan : scanTracks user_id today db tracks with
      | mk dbs res =>
        simp only [hscan] at h
        cases res with
        | some t' =>
          obtain rfl : t' = t := by simpa using congrArg Prod.snd h
          obtain ⟨hd, hu⟩ := scanTracks_some hscan
          exact ⟨(congrArg Prod.fst h).symm.trans hd, hu⟩
        | none =>
          obtain rfl : dbs = db := scanTracks_none hscan
          exact ih h

theorem get_trackGo_none {user_id : Nat} {today : String} {service : String → Response}
    {db db2 : Ledger} {rs : List String}
    (h : get_trackGo user_id today service db rs = (db2, Except.ok none)) :
    db2 = db := by
  induction rs generalizing db with
  | nil => exact (congrArg Prod.fst h).symm
  | cons r rs ih =>
    cases hf : fetchTopTracks (service r) with
    | error e' =>
      simp only [get_trackGo, hf] at h
      exact absurd (congrArg Prod.snd h) (by simp)
    | ok tracks =>
      simp only [get_trackGo, hf] at h
      cases hscan : scanTracks user_id today db tracks with
      | mk dbs res =>
        simp only [hscan] at h
        cases res with
        | some t => simp at h
        | none =>
          obtain rfl : dbs = db := scanTracks_none hscan
          exact ih h

theorem get_trackGo_all_seen {user_id : Nat} {today : String} {service : String → Response}
    {db : Ledger} {rs : List String}
    (h : ∀ r ∈ rs, ∃ l, fetchTopTracks (service r) = Except.ok l ∧
      ∀ t ∈ l, isSeen user_id t.artist t.name db = true) :
    get_trackGo user_id today service db rs = (db, Except.ok none) := by
  induction rs with
  | nil => rfl
  | cons r rs ih =>
    obtain ⟨l, hf, hl⟩ := h r (List.mem_cons_self r rs)
    rw [get_trackGo]
    simp only [hf, scanTracks_all_seen hl]
    exact ih fun r' hr' => h r' (List.mem_cons_of_mem r hr')

theorem get_trackGo_first_unseen {user_id : Nat} {today : String}
    {service : String → Response} {db : Ledger}
    {pre post : List String} {r : String} {tpre tpost : List Track} {t : Track}
    (hpre : ∀ r' ∈ pre, ∃ l, fetchTopTracks (service r') = Except.ok l ∧
      ∀ t' ∈ l, isSeen user_id t'.artist t'.name db = true)
    (hr : fetchTopTracks (service r) = Except.ok (tpre ++ t :: tpost))
    (htpre : ∀ t' ∈ tpre, isSeen user_id t'.artist t'.name db = true)
    (ht : isSeen user_id t.artist t.name db = false) :
    get_trackGo user_id today service db (pre ++ r :: post) =
      (db ++ [⟨user_id, today, t.artist, t.name⟩], Except.ok (some t)) := by
  induction pre with
  | nil =>
    rw [List.nil_append, get_trackGo]
    simp only [hr, scanTracks_first_unseen htpre ht]
  | cons r' pre ih =>
    obtain ⟨l, hf, hl⟩ := hpre r' (List.mem_cons_self r' pre)
    rw [List.cons_append, get_trackGo]
    simp only [hf, scanTracks_all_seen hl]
    exact ih fun x hx => hpre x (List.mem_cons_of_mem r' hx)

theorem get_trackGo_congr {user_id : Nat} {today : String} {service : String → Response}
    {db db2 : Ledger} (rs : List String)
    (h : ∀ a n, isSeen user_id a n db = isSeen user_id a n db2) :
    ∃ Δ res, get_trackGo user_id today service db rs = (db ++ Δ, res) ∧
      get_trackGo user_id today service db2 rs = (db2 ++ Δ, res) := by
  induction rs with
  | nil => exact ⟨[], Except.ok none, by simp [get_trackGo]⟩
  | cons r rs ih =>
    cases hf : fetchTopTracks (service r) with
    | error e => exact ⟨[], Except.error e, by simp [get_trackGo, hf]⟩
    | ok tracks =>
      obtain ⟨Δ0, res0, h1, h2⟩ := @scanTracks_congr user_id today db db2 tracks h
      cases res0 with
      | some t =>
        refine ⟨Δ0, Except.ok (some t), ?_, ?_⟩
        · simp only [get_trackGo, hf, h1]
        · simp only [get_trackGo, hf, h2]
      | none =>
        have hΔ0 : Δ0 = [] := by
          have h0 : db ++ Δ0 = db ++ [] := by
            rw [List.append_nil]
            exact scanTracks_none h1
          exact List.append_cancel_left h0
        subst hΔ0
        rw [List.append_nil] at h1
        rw [List.append_nil] at h2
        obtain ⟨Δ, res, g1, g2⟩ := ih
        refine ⟨Δ, res, ?_, ?_⟩
        · simp only [get_trackGo, hf, h1]
          exact g1
        · simp only [get_trackGo, hf, h2]
          exact g2

/-! Helper lemmas about ledger membership under appends. -/

theorem isSeen_append (user_id : Nat) (a n : String) (db Δ : Ledger) :
    isSeen user_id a n (db ++ Δ) = (isSeen user_id a n db || isSeen user_id a n Δ) := by
  simp [isSeen, List.any_append]

theorem hasTodayRow_append (user_id : Nat) (today : String) (db Δ : Ledger) :
    hasTodayRow user_id today (db ++ Δ) =
      (hasTodayRow user_id today db || hasTodayRow user_id today Δ) := by
  simp [hasTodayRow, List.any_append]

theorem isSeen_of_no_user {user_id : Nat} {a n : String} {Δ : Ledger}
    (h : ∀ r ∈ Δ, r.user_id ≠ user_id) : isSeen user_id a n Δ = false := by
  rw [isSeen, List.any_eq_false]
  intro r hr
  simp [h r hr]

theorem isSeen_append_no_user {user_id : Nat} {db Δ : Ledger}
    (h : ∀ r ∈ Δ, r.user_id ≠ user_id) :
    ∀ a n, isSeen user_id a n db = isSeen user_id a n (db ++ Δ) := by
  intro a n
  rw [isSeen_append, isSeen_of_no_user h, Bool.or_false]

theorem hasTodayRow_insert (user_id : Nat) (today : String) (db : Ledger) (a n : String) :
    hasTodayRow user_id today (db ++ [⟨user_id, today, a, n⟩]) = true := by
  simp [hasTodayRow, List.any_append]

theorem no_user_rows_of_not_today {user_id : Nat} {today : String} {db Δ : Ledger}
    (hnew : hasTodayRow user_id today (db ++ Δ) = false)
    (hdate : ∀ r ∈ Δ, r.date = today) :
    ∀ r ∈ Δ, r.user_id ≠ user_id := by
  intro r hr hu
  have hΔ : hasTodayRow user_id today Δ = true := by
    rw [hasTodayRow, List.any_eq_true]
    exact ⟨r, hr, by simp [hu, hdate r hr]⟩
  rw [hasTodayRow_append] at hnew
  simp [hΔ] at hnew

/-! Helper lemmas about the sweep. -/

theorem get_trackGo_delta {user_id : Nat} {today : String} {service : String → Response}
    {db : Ledger} {rs : List String} :
    ∃ Δ, (get_trackGo user_id today service db rs).1 = db ++ Δ ∧
      ∀ r ∈ Δ, r.user_id = user_id ∧ r.date = today := by
  rcases hres : get_trackGo user_id today service db rs with ⟨db2, res⟩
  cases res with
  | error e =>
    obtain rfl : db2 = db := get_trackGo_error hres
    exact ⟨[], by simp, by simp⟩
  | ok o =>
    cases o with
    | none =>
      obtain rfl : db2 = db := get_trackGo_none hres
      exact ⟨[], by simp, by simp⟩
    | some t =>
      obtain ⟨hd, _⟩ := get_trackGo_some hres
      exact ⟨[⟨user_id, today, t.artist, t.name⟩], by simpa using hd, by simp⟩

theorem get_trackGo_stable {user_id : Nat} {today : String} {service : String → Response}
    {db Δ : Ledger} {res : Except String (Option Track)} {rs : List String}
    (hres : get_trackGo user_id today service db rs = (db, res))
    (hnou : ∀ r ∈ Δ, r.user_id ≠ user_id) :
    get_trackGo user_id today service (db ++ Δ) rs = (db ++ Δ, res) := by
  obtain ⟨Δ2, res2, g1, g2⟩ := get_trackGo_congr rs (isSeen_append_no_user hnou)
  have he := hres.symm.trans g1
  have h1 : db = db ++ Δ2 := congrArg Prod.fst he
  have h2 : res = res2 := congrArg Prod.snd he
  have hΔ2 : Δ2 = [] := by
    have h0 : db ++ Δ2 = db ++ [] := by rw [List.append_nil]; exact h1.symm
    exact List.append_cancel_left h0
  rw [g2, hΔ2, List.append_nil, ← h2]

theorem processUser_delta {today : String} {service : Credentials → String → Response}
    {resolve : Nat → Option Profile} {u : UserRow} {db : Ledger} :
    ∃ Δ, (processUser today service resolve u db).1 = db ++ Δ ∧
      ∀ r ∈ Δ, r.user_id = u.discord_id ∧ r.date = today := by
  by_cases hskip : hasTodayRow u.discord_id today db
  · refine ⟨[], ?_, by simp⟩
    rw [processUser, if_pos hskip]
    simp
  · obtain ⟨Δ, hΔ, hrows⟩ := @get_trackGo_delta u.discord_id today
      (service ⟨u.lfm_username, u.lfm_api_key⟩) db TIME_RANGES
    refine ⟨Δ, ?_, hrows⟩
    rw [processUser, if_neg hskip]
    rcases hres : get_track u.discord_id ⟨u.lfm_username, u.lfm_api_key⟩ today service db
      with ⟨db2, res⟩
    have hdb2 : db2 = db ++ Δ := by
      have h1 : (get_track u.discord_id ⟨u.lfm_username, u.lfm_api_key⟩ today service db).1
          = db2 := congrArg Prod.fst hres
      exact h1.symm.trans hΔ
    cases res with
    | error e => simpa using hdb2
    | ok o =>
      cases o with
      | none => simpa using hdb2
      | some t =>
        cases hresolve : resolve u.discord_id with
        | none => simpa using hdb2
        | some p => simpa using hdb2

theorem processUser_fst {today : String} {service : Credentials → String → Response}
    {resolve : Nat → Option Profile} {u : UserRow} {db db2 : Ledger}
    {res : Except String (Option Track)}
    (hskip : ¬ hasTodayRow u.discord_id today db = true)
    (hres : get_track u.discord_id ⟨u.lfm_username, u.lfm_api_key⟩ today service db
      = (db2, res)) :
    (processUser today service resolve u db).1 = db2 := by
  rw [processUser, if_neg hskip, hres]
  cases res with
  | error e => rfl
  | ok o =>
    cases o with
    | none => rfl
    | some t =>
      cases hresolve : resolve u.discord_id with
      | none => simp [hresolve]
      | some p => simp [hresolve]

theorem processUser_persist {today : String} {service : Credentials → String → Response}
    {resolve : Nat → Option Profile} {u : UserRow} {db Δ : Ledger}
    (hΔ : ∀ r ∈ Δ, r.date = today) :
    processUser today service resolve u ((processUser today service resolve u db).1 ++ Δ) =
      ((processUser today service resolve u db).1 ++ Δ, []) := by
  by_cases hskip : hasTodayRow u.discord_id today db
  · have hfst : (processUser today service resolve u db).1 = db := by
      rw [processUser, if_pos hskip]
    rw [hfst]
    have hnew : hasTodayRow u.discord_id today (db ++ Δ) = true := by
      rw [hasTodayRow_append, hskip]
      simp
    rw [processUser, if_pos hnew]
  · rcases hres : get_track u.discord_id ⟨u.lfm_username, u.lfm_api_key⟩ today service db
      with ⟨db2, res⟩
    have hfst : (processUser today service resolve u db).1 = db2 :=
      processUser_fst hskip hres
    rw [hfst]
    cases res with
    | error e =>
      have hdb2 : db2 = db := get_trackGo_error hres
      by_cases hnew : hasTodayRow u.discord_id today (db2 ++ Δ)
      · rw [processUser, if_pos hnew]
      · have hnou : ∀ r ∈ Δ, r.user_id ≠ u.discord_id := by
          rw [hdb2] at hnew
          exact no_user_rows_of_not_today (by simpa using hnew) hΔ
        have hstable : get_track u.discord_id ⟨u.lfm_username, u.lfm_api_key⟩ today service
            (db2 ++ Δ) = (db2 ++ Δ, Except.error e) := by
          rw [hdb2]
          exact get_trackGo_stable (hdb2 ▸ hres) hnou
        rw [processUser, if_neg hnew, hstable]
    | ok o =>
      cases o with
      | none =>
        have hdb2 : db2 = db := get_trackGo_none hres
        by_cases hnew : hasTodayRow u.discord_id today (db2 ++ Δ)
        · rw [processUser, if_pos hnew]
        · have hnou : ∀ r ∈ Δ, r.user_id ≠ u.discord_id := by
            rw [hdb2] at hnew
            exact no_user_rows_of_not_today (by simpa using hnew) hΔ
          have hstable : get_track u.discord_id ⟨u.lfm_username, u.lfm_api_key⟩ today service
              (db2 ++ Δ) = (db2 ++ Δ, Except.ok none) := by
            rw [hdb2]
            exact get_trackGo_stable (hdb2 ▸ hres) hnou
          rw [processUser, if_neg hnew, hstable]
      | some t =>
        obtain ⟨hd, _⟩ := get_trackGo_some hres
        have hrow : hasTodayRow u.discord_id today db2 = true := by
          rw [hd]
          exact hasTodayRow_insert u.discord_id today db t.artist t.name
        have hnew : hasTodayRow u.discord_id today (db2 ++ Δ) = true := by
          rw [hasTodayRow_append, hrow]
          simp
        rw [processUser, if_pos hnew]

theorem daily_task_pair {today : String} {service : Credentials → String → Response}
    {resolve : Nat → Option Profile} {u : UserRow} {rest : List UserRow} {db : Ledger} :
    daily_task today service resolve db (u :: rest) =
      ((daily_task today service resolve (processUser today service resolve u db).1 rest).1,
       (processUser today service resolve u db).2 ++
         (daily_task today service resolve (processUser today service resolve u db).1 rest).2) := by
  rcases hp : processUser today service resolve u db with ⟨db1, sent⟩
  rcases hd : daily_task today service resolve db1 rest with ⟨db2, sent2⟩
  simp only [daily_task, hp, hd]

theorem daily_task_delta {today : String} {service : Credentials → String → Response}
    {resolve : Nat → Option Profile} :
    ∀ (users : List UserRow) (db : Ledger),
      ∃ Δ, (daily_task today service resolve db users).1 = db ++ Δ ∧
        ∀ r ∈ Δ, r.date = today := by
  intro users
  induction users with
  | nil => exact fun db => ⟨[], by simp [daily_task], by simp⟩
  | cons u rest ih =>
    intro db
    obtain ⟨Δ1, hΔ1, hrows1⟩ := @processUser_delta today service resolve u db
    obtain ⟨Δ2, hΔ2, hrows2⟩ := ih (processUser today service resolve u db).1
    refine ⟨Δ1 ++ Δ2, ?_, ?_⟩
    · rw [daily_task_pair]
      rw [hΔ2, hΔ1, List.append_assoc]
    · intro r hr
      rcases List.mem_append.mp hr with h1 | h2
      · exact (hrows1 r h1).2
      · exact hrows2 r h2

theorem daily_task_inert {today : String} {service : Credentials → String → Response}
    {resolve : Nat → Option Profile} :
    ∀ (users : List UserRow) (db : Ledger),
      (∀ u ∈ users, processUser today service resolve u db = (db, [])) →
      daily_task today service resolve db users = (db, []) := by
  intro users
  induction users with
  | nil => intro db _; rfl
  | cons u rest ih =>
    intro db h
    rw [daily_task_pair, h u (List.mem_cons_self u rest)]
    have := ih db fun v hv => h v (List.mem_cons_of_mem u hv)
    simp only [this]
    simp

theorem sweep_makes_inert {today : String} {service : Credentials → String → Response}
    {resolve : Nat → Option Profile} :
    ∀ (users : List UserRow) (db : Ledger) (u : UserRow), u ∈ users →
      processUser today service resolve u (daily_task today service resolve db users).1 =
        ((daily_task today service resolve db users).1, []) := by
  intro users
  induction users with
  | nil => intro db u hu; exact absurd hu (List.not_mem_nil u)
  | cons v rest ih =>
    intro db u hu
    rw [daily_task_pair]
    simp only
    rcases List.mem_cons.mp hu with rfl | hmem
    · obtain ⟨Δ, hΔ, hrows⟩ := @daily_task_delta today service resolve
        rest (processUser today service resolve u db).1
      rw [hΔ]
      exact processUser_persist hrows
    · exact ih (processUser today service resolve v db).1 u hmem

/-! Claim theorems. -/

/-- C1: for every user with an unseen track among the fetched ranges,
get_track returns the unseen track of the shortest time range containing
one (TIME_RANGES is ordered shortest first) and, within that range, the
highest-ranked unseen track; it inserts exactly that track into the ledger
tagged with today's date and returns immediately, the later ranges and
tracks (post and tpost) being arbitrary and unexamined. -/
theorem C1_discovery_priority
    (user_id : Nat) (credentials : Credentials) (today : String)
    (service : Credentials → String → Response) (db : Ledger)
    (pre post : List String) (r : String) (tpre tpost : List Track) (t : Track)
    (hranges : TIME_RANGES = pre ++ r :: post)
    (hpre : ∀ r' ∈ pre, ∃ l, fetchTopTracks (service credentials r') = Except.ok l ∧
      ∀ t' ∈ l, isSeen user_id t'.artist t'.name db = true)
    (hr : fetchTopTracks (service credentials r) = Except.ok (tpre ++ t :: tpost))
    (htpre : ∀ t' ∈ tpre, isSeen user_id t'.artist t'.name db = true)
    (ht : isSeen user_id t.artist t.name db = false) :
    get_track user_id credentials today service db =
      (db ++ [⟨user_id, today, t.artist, t.name⟩], Except.ok (some t)) := by
  rw [get_track, hranges]
  exact get_trackGo_first_unseen hpre hr htpre ht

/-- Witness for C1: with the 7day range holding two fresh tracks and the
other ranges empty, discovery returns the 7day rank-1 track and inserts it. -/
theorem C1_discovery_priority_witness :
    get_track 1 ⟨"alice", "key"⟩ "2024-01-01"
        (fun _ r => if r == "7day"
          then ⟨200, Body.ok [⟨"Artist A", "Song A"⟩, ⟨"Artist B", "Song B"⟩]⟩
          else ⟨200, Body.ok []⟩) [] =
      ([⟨1, "2024-01-01", "Artist A", "Song A"⟩],
        Except.ok (some ⟨"Artist A", "Song A"⟩)) := by
  have h := C1_discovery_priority 1 ⟨"alice", "key"⟩ "2024-01-01"
    (fun _ r => if r == "7day"
      then ⟨200, Body.ok [⟨"Artist A", "Song A"⟩, ⟨"Artist B", "Song B"⟩]⟩
      else ⟨200, Body.ok []⟩) []
    [] ["1month", "3month", "6month", "12month", "overall"] "7day"
    [] [⟨"Artist B", "Song B"⟩] ⟨"Artist A", "Song A"⟩
    rfl (by simp) rfl (by simp) rfl
  simpa using h

/-- C2: once a ledger row for user U and track T exists, get_track for U
never returns T again, whatever the service returns for any range and
whatever the later date is. -/
theorem C2_no_duplicate_delivery
    (U : Nat) (T : Track) (credentials : Credentials) (today : String)
    (service : Credentials → String → Response) (db db2 : Ledger)
    (row : LedgerRow) (t : Track)
    (hrow : row ∈ db) (hU : row.user_id = U)
    (ha : row.track_artist = T.artist) (hn : row.track_name = T.name)
    (hres : get_track U credentials today service db = (db2, Except.ok (some t))) :
    t ≠ T := by
  obtain ⟨_, hunseen⟩ := get_trackGo_some hres
  intro heq
  rw [heq] at hunseen
  have hseen : isSeen U T.artist T.name db = true := by
    rw [isSeen, List.any_eq_true]
    exact ⟨row, hrow, by simp [hU, ha, hn]⟩
  simp [hseen] at hunseen

/-- Witness for C2: with the pair Artist A, Song A already in the ledger and
the service listing it first everywhere, discovery returns the other track,
not the recorded one. -/
theorem C2_no_duplicate_delivery_witness :
    (⟨"Artist B", "Song B"⟩ : Track) ≠ ⟨"Artist A", "Song A"⟩ :=
  C2_no_duplicate_delivery 1 ⟨"Artist A", "Song A"⟩ ⟨"alice", "key"⟩ "2024-06-01"
    (fun _ _ => ⟨200, Body.ok [⟨"Artist A", "Song A"⟩, ⟨"Artist B", "Song B"⟩]⟩)
    [⟨1, "2024-01-01", "Artist A", "Song A"⟩]
    [⟨1, "2024-01-01", "Artist A", "Song A"⟩, ⟨1, "2024-06-01", "Artist B", "Song B"⟩]
    ⟨1, "2024-01-01", "Artist A", "Song A"⟩ ⟨"Artist B", "Song B"⟩
    (by simp) rfl rfl rfl rfl

/-- C3: re-running the sweep immediately after one, on the same day with the
same users, service responses and user resolution, is the identity: zero new
ledger rows and zero notifications, so each user gets at most one successful
discovery and at most one notification per calendar day however often the
sweep fires. -/
theorem C3_sweep_idempotent (today : String) (service : Credentials → String → Response)
    (resolve : Nat → Option Profile) (db : Ledger) (users : List UserRow) :
    daily_task today service resolve (daily_task today service resolve db users).1 users =
      ((daily_task today service resolve db users).1, []) :=
  daily_task_inert users _ fun u hu => sweep_makes_inert users db u hu

/-- C4: when get_track fails with a service error, no ledger insert took
place: the ledger after the failed call equals the ledger before it. -/
theorem C4_error_no_insert (user_id : Nat) (credentials : Credentials) (today : String)
    (service : Credentials → String → Response) (db : Ledger) (e : String)
    (h : (get_track user_id credentials today service db).2 = Except.error e) :
    (get_track user_id credentials today service db).1 = db := by
  rcases hres : get_track user_id credentials today service db with ⟨db2, res⟩
  rw [hres] at h
  obtain rfl : res = Except.error e := h
  exact get_trackGo_error hres

/-- Witness for C4: a service answering every range with an error payload
makes discovery fail on the first range and leave the empty ledger empty. -/
theorem C4_error_no_insert_witness :
    (get_track 1 ⟨"alice", "key"⟩ "2024-01-01"
        (fun _ _ => ⟨200, Body.errorPayload "User not found"⟩) []).2 =
      Except.error "Error while fetching top tracks: User not found" ∧
    (get_track 1 ⟨"alice", "key"⟩ "2024-01-01"
        (fun _ _ => ⟨200, Body.errorPayload "User not found"⟩) []).1 = [] :=
  ⟨rfl, C4_error_no_insert 1 ⟨"alice", "key"⟩ "2024-01-01"
    (fun _ _ => ⟨200, Body.errorPayload "User not found"⟩) []
    "Error while fetching top tracks: User not found" rfl⟩

/-- C5: one fetch fails exactly when the HTTP status is non-success (400 or
above), the body is malformed, or the body embeds an error payload; and when
the status is a success and the body embeds an error payload, the raised
error message contains the service's message. -/
theorem C5_fetch_error_characterization (resp : Response) :
    ((∃ e, fetchTopTracks resp = Except.error e) ↔
      (400 ≤ resp.status ∨ resp.body = Body.malformed ∨
        ∃ m, resp.body = Body.errorPayload m))
    ∧ ∀ m, resp.status < 400 → resp.body = Body.errorPayload m →
        fetchTopTracks resp = Except.error ("Error while fetching top tracks: " ++ m) := by
  rcases resp with ⟨status, body⟩
  by_cases hs : 400 ≤ status
  · constructor
    · simp [fetchTopTracks, hs]
    · intro m hlt _
      have hlt2 : status < 400 := hlt
      exact absurd hs (by omega)
  · constructor
    · cases body <;> simp [fetchTopTracks, hs]
    · intro m _ hb
      have hb2 : body = Body.errorPayload m := hb
      subst hb2
      simp [fetchTopTracks, hs]

/-- Witness for C5: a 200-status response with an embedded error payload
fails with the service message appended to the APIError text. -/
theorem C5_fetch_error_characterization_witness :
    fetchTopTracks ⟨200, Body.errorPayload "Invalid API key"⟩ =
      Except.error ("Error while fetching top tracks: " ++ "Invalid API key") :=
  (C5_fetch_error_characterization ⟨200, Body.errorPayload "Invalid API key"⟩).2
    "Invalid API key" (by decide) rfl

/-- Helper: an error from get_track is caught by the try/except, so the
per-user body absorbs it and returns nothing, even in the fallible model. -/
theorem processUserExc_caught {today : String} {service : Credentials → String → Response}
    {resolve : Nat → Except String (Option Profile)}
    {send : Notification → Except String Unit} {u : UserRow} {db : Ledger} {e : String}
    (herr : (get_track u.discord_id ⟨u.lfm_username, u.lfm_api_key⟩ today service db).2 =
      Except.error e) :
    processUserExc today service resolve send u db = (db, Except.ok []) := by
  by_cases hskip : hasTodayRow u.discord_id today db
  · rw [processUserExc, if_pos hskip]
  · rcases hres : get_track u.discord_id ⟨u.lfm_username, u.lfm_api_key⟩ today service db
      with ⟨db2, res⟩
    rw [hres] at herr
    obtain rfl : res = Except.error e := herr
    obtain rfl : db2 = db := get_trackGo_error hres
    rw [processUserExc, if_neg hskip, hres]

/-- Helper: a user whose body returns nothing and leaves the ledger alone is
transparent to the sweep. -/
theorem daily_taskExc_skip {today : String} {service : Credentials → String → Response}
    {resolve : Nat → Except String (Option Profile)}
    {send : Notification → Except String Unit} {u : UserRow} {rest : List UserRow}
    {db : Ledger}
    (hp : processUserExc today service resolve send u db = (db, Except.ok [])) :
    daily_taskExc today service resolve send db (u :: rest) =
      daily_taskExc today service resolve send db rest := by
  rw [daily_taskExc, hp]
  rcases hd : daily_taskExc today service resolve send db rest with ⟨db2, res⟩
  cases res with
  | error e => simp [hd]
  | ok sent2 => simp [hd]

/-- C6 counterexample: in the model keeping fetch_user and webhook.send
fallible (only get_track is guarded by the try/except of lines 149-153),
user 1's identity resolution raising after a committed discovery aborts the
sweep over users 1 and 2 with user 1's error, and user 2 is never processed:
no row and no notification for user 2 appear, although the same sweep over
user 2 alone inserts a row and sends the notification. -/
theorem C6_failure_isolated_counterexample :
    daily_taskExc "2024-01-01" (fun _ _ => ⟨200, Body.ok [⟨"Artist A", "Song A"⟩]⟩)
        (fun uid => if uid == 1 then Except.error "404 Not Found"
          else Except.ok (some ⟨uid, "bob"⟩))
        (fun _ => Except.ok ()) [] [⟨1, "u1", "k1"⟩, ⟨2, "u2", "k2"⟩] =
      ([⟨1, "2024-01-01", "Artist A", "Song A"⟩], Except.error "404 Not Found") ∧
    daily_taskExc "2024-01-01" (fun _ _ => ⟨200, Body.ok [⟨"Artist A", "Song A"⟩]⟩)
        (fun uid => if uid == 1 then Except.error "404 Not Found"
          else Except.ok (some ⟨uid, "bob"⟩))
        (fun _ => Except.ok ()) [] [⟨2, "u2", "k2"⟩] =
      ([⟨2, "2024-01-01", "Artist A", "Song A"⟩],
        Except.ok [⟨"Daily Music - bob", "Song A by Artist A", "Song A Artist A"⟩]) :=
  ⟨rfl, rfl⟩

/-- C6 (amended): a failure of one user's discovery call (get_track) is
caught and the sweep continues: sweeping that user followed by the rest
equals sweeping the rest alone, even in the model where resolution and
dispatch can raise; but a failure raised by identity resolution after a
committed discovery is not caught: the sweep stops with that error and its
result no longer depends on the remaining users. -/
theorem C6_discovery_failure_isolated (today : String)
    (service : Credentials → String → Response)
    (resolve : Nat → Except String (Option Profile))
    (send : Notification → Except String Unit) (db : Ledger) (u : UserRow)
    (rest : List UserRow) (e : String) :
    ((get_track u.discord_id ⟨u.lfm_username, u.lfm_api_key⟩ today service db).2 =
        Except.error e →
      daily_taskExc today service resolve send db (u :: rest) =
        daily_taskExc today service resolve send db rest)
    ∧ ∀ db2 t, hasTodayRow u.discord_id today db = false →
        get_track u.discord_id ⟨u.lfm_username, u.lfm_api_key⟩ today service db =
          (db2, Except.ok (some t)) →
        resolve u.discord_id = Except.error e →
        daily_taskExc today service resolve send db (u :: rest) =
          (db2, Except.error e) := by
  constructor
  · intro herr
    exact daily_taskExc_skip (processUserExc_caught herr)
  · intro db2 t hskip htrack hresolve
    have hp : processUserExc today service resolve send u db = (db2, Except.error e) := by
      rw [processUserExc, if_neg (by simp [hskip]), htrack, hresolve]
    rw [daily_taskExc, hp]

/-- Witness for C6: the first conjunct at a service that is down for
everyone (the sweep over two users equals the sweep over the second alone),
the second at a resolution failure for user 1 after a committed row (the
sweep aborts with that error). -/
theorem C6_discovery_failure_isolated_witness :
    daily_taskExc "2024-01-01" (fun _ _ => ⟨200, Body.errorPayload "down"⟩)
        (fun _ => Except.ok none) (fun _ => Except.ok ()) []
        [⟨1, "u1", "k1"⟩, ⟨2, "u2", "k2"⟩] =
      daily_taskExc "2024-01-01" (fun _ _ => ⟨200, Body.errorPayload "down"⟩)
        (fun _ => Except.ok none) (fun _ => Except.ok ()) [] [⟨2, "u2", "k2"⟩] ∧
    daily_taskExc "2024-01-01" (fun _ _ => ⟨200, Body.ok [⟨"Artist A", "Song A"⟩]⟩)
        (fun _ => Except.error "404 Not Found") (fun _ => Except.ok ()) []
        [⟨1, "u1", "k1"⟩, ⟨2, "u2", "k2"⟩] =
      ([⟨1, "2024-01-01", "Artist A", "Song A"⟩], Except.error "404 Not Found") :=
  ⟨(C6_discovery_failure_isolated "2024-01-01"
      (fun _ _ => ⟨200, Body.errorPayload "down"⟩) (fun _ => Except.ok none)
      (fun _ => Except.ok ()) [] ⟨1, "u1", "k1"⟩ [⟨2, "u2", "k2"⟩]
      "Error while fetching top tracks: down").1 rfl,
   (C6_discovery_failure_isolated "2024-01-01"
      (fun _ _ => ⟨200, Body.ok [⟨"Artist A", "Song A"⟩]⟩)
      (fun _ => Except.error "404 Not Found") (fun _ => Except.ok ()) []
      ⟨1, "u1", "k1"⟩ [⟨2, "u2", "k2"⟩] "404 Not Found").2
    [⟨1, "2024-01-01", "Artist A", "Song A"⟩] ⟨"Artist A", "Song A"⟩ rfl rfl rfl⟩

/-- C7: when every track of every range is already in the ledger, get_track
returns none (not an error) with the ledger unchanged; and an empty
top-tracks list for a range makes the loop proceed to the next range. -/
theorem C7_all_seen_and_empty_range
    (user_id : Nat) (credentials : Credentials) (today : String)
    (service : Credentials → String → Response) (db : Ledger)
    (r0 : String) (rest : List String) :
    ((∀ r ∈ TIME_RANGES, ∃ l, fetchTopTracks (service credentials r) = Except.ok l ∧
        ∀ t ∈ l, isSeen user_id t.artist t.name db = true) →
      get_track user_id credentials today service db = (db, Except.ok none))
    ∧ (fetchTopTracks (service credentials r0) = Except.ok [] →
      get_trackGo user_id today (service credentials) db (r0 :: rest) =
        get_trackGo user_id today (service credentials) db rest) := by
  constructor
  · intro h
    rw [get_track]
    exact get_trackGo_all_seen h
  · intro h0
    rw [get_trackGo]
    simp only [h0, scanTracks]

/-- Witness for C7: a ledger already holding the only track the service
lists yields none, and an empty 7day page falls through to 1month. -/
theorem C7_all_seen_and_empty_range_witness :
    get_track 1 ⟨"alice", "key"⟩ "2024-06-01"
        (fun _ _ => ⟨200, Body.ok [⟨"Artist A", "Song A"⟩]⟩)
        [⟨1, "2024-01-01", "Artist A", "Song A"⟩] =
      ([⟨1, "2024-01-01", "Artist A", "Song A"⟩], Except.ok none) ∧
    get_trackGo 1 "2024-06-01" (fun _ => ⟨200, Body.ok []⟩) [] ["7day", "1month"] =
      get_trackGo 1 "2024-06-01" (fun _ => ⟨200, Body.ok []⟩) [] ["1month"] := by
  constructor
  · exact (C7_all_seen_and_empty_range 1 ⟨"alice", "key"⟩ "2024-06-01"
      (fun _ _ => ⟨200, Body.ok [⟨"Artist A", "Song A"⟩]⟩)
      [⟨1, "2024-01-01", "Artist A", "Song A"⟩] "7day" []).1
      (fun r _ => ⟨[⟨"Artist A", "Song A"⟩], rfl, by decide⟩)
  · exact (C7_all_seen_and_empty_range 1 ⟨"alice", "key"⟩ "2024-06-01"
      (fun _ _ => ⟨200, Body.ok []⟩) [] "7day" ["1month"]).2 rfl

/-- C8 counterexample: with no stored credentials, the discovery attempt
fails with the NoCredentialsError message of the source, which differs from
the message string quoted in the claim. -/
theorem C8_message_counterexample :
    (manual_discovery ⟨[], []⟩ 1 "2024-01-01" (fun _ _ => ⟨200, Body.ok []⟩)).2 =
        Except.error noCredentialsMessage ∧
      noCredentialsMessage ≠ "you need to set your username and API key" := by
  constructor
  · rfl
  · decide

/-- C8 (amended): a discovery attempt outside the scheduler for a user with
no stored credentials fails with the user-visible message of
NoCredentialsError, performing no discovery and no ledger change; it is not
retried. -/
theorem C8_no_credentials_error (db : DB) (user_id : Nat) (today : String)
    (service : Credentials → String → Response)
    (h : get_credentials db.users user_id = none) :
    manual_discovery db user_id today service =
      (db.tracks, Except.error "You need to set your Last.fm username and API key.") := by
  rw [manual_discovery, h]
  rfl

/-- Witness for C8: a users table holding only user 2 makes user 1's manual
discovery fail with the NoCredentialsError message. -/
theorem C8_no_credentials_error_witness :
    manual_discovery ⟨[⟨2, "bob", "key2"⟩], []⟩ 1 "2024-01-01"
        (fun _ _ => ⟨200, Body.ok []⟩) =
      (([] : Ledger),
        Except.error "You need to set your Last.fm username and API key.") :=
  C8_no_credentials_error ⟨[⟨2, "bob", "key2"⟩], []⟩ 1 "2024-01-01"
    (fun _ _ => ⟨200, Body.ok []⟩) rfl

/-- C9: when discovery commits a row for a user but the identity lookup
resolves nobody, the per-user sweep step sends no notification while the
committed ledger row stays in the resulting ledger. -/
theorem C9_unresolved_user_row_persists
    (today : String) (service : Credentials → String → Response)
    (resolve : Nat → Option Profile) (u : UserRow) (db db2 : Ledger) (t : Track)
    (hskip : hasTodayRow u.discord_id today db = false)
    (htrack : get_track u.discord_id ⟨u.lfm_username, u.lfm_api_key⟩ today service db =
      (db2, Except.ok (some t)))
    (hresolve : resolve u.discord_id = none) :
    processUser today service resolve u db = (db2, []) ∧
      (⟨u.discord_id, today, t.artist, t.name⟩ : LedgerRow) ∈ db2 := by
  obtain ⟨hd, _⟩ := get_trackGo_some htrack
  constructor
  · rw [processUser, if_neg (by simp [hskip]), htrack, hresolve]
  · rw [hd]
    simp

/-- Witness for C9: a fresh track is committed for user 1 while resolution
returns nobody, so no notification is emitted and the row remains. -/
theorem C9_unresolved_user_row_persists_witness :
    processUser "2024-01-01" (fun _ _ => ⟨200, Body.ok [⟨"Artist A", "Song A"⟩]⟩)
        (fun _ => none) ⟨1, "alice", "key"⟩ [] =
      ([⟨1, "2024-01-01", "Artist A", "Song A"⟩], []) ∧
    (⟨1, "2024-01-01", "Artist A", "Song A"⟩ : LedgerRow) ∈
      ([⟨1, "2024-01-01", "Artist A", "Song A"⟩] : Ledger) :=
  C9_unresolved_user_row_persists "2024-01-01"
    (fun _ _ => ⟨200, Body.ok [⟨"Artist A", "Song A"⟩]⟩) (fun _ => none)
    ⟨1, "alice", "key"⟩ [] [⟨1, "2024-01-01", "Artist A", "Song A"⟩]
    ⟨"Artist A", "Song A"⟩ rfl rfl rfl

/-- C10: the tracks ledger is append-only: discovery and the sweep only ever
append rows to the existing ledger, and registration rewrites only the users
table, leaving every tracks row in place, so a user's seen-set only grows. -/
theorem C10_ledger_append_only
    (user_id : Nat) (credentials : Credentials) (today : String)
    (service : Credentials → String → Response) (db : Ledger)
    (resolve : Nat → Option Profile) (users : List UserRow)
    (st : DB) (uid : Nat) (un key : String) :
    (∃ Δ, (get_track user_id credentials today service db).1 = db ++ Δ)
    ∧ (∃ Δ, (daily_task today service resolve db users).1 = db ++ Δ)
    ∧ (register st uid un key).tracks = st.tracks := by
  refine ⟨?_, ?_, rfl⟩
  · obtain ⟨Δ, hΔ, _⟩ := @get_trackGo_delta user_id today (service credentials) db TIME_RANGES
    exact ⟨Δ, hΔ⟩
  · obtain ⟨Δ, hΔ, _⟩ := @daily_task_delta today service resolve users db
    exact ⟨Δ, hΔ⟩

end DailyMusic
